import Mathlib

/-! Shallow embedding of the speech relay server: `src/server.py` and
`src/transcriber.py`.  Pure-data fragments of the Python code become Lean
functions over explicit state records; the dynamic (duck-typed) part around
the timeout check is embedded with an explicit `Except` for raised
exceptions. -/

/-- One audio frame: an opaque byte chunk (the `data` argument of
`on_message` / `transcribe`).  Python truthiness of a byte string is
nonemptiness. -/
abbrev Frame := List Nat

/-- `types.StreamingRecognizeRequest(audio_content=data)`
(transcriber.py:246). -/
structure StreamingRecognizeRequest where
  audio_content : Frame
deriving DecidableEq

/-- The mutable state of one `Transcriber` together with its
`QueuedAudioStream` queue (`self.audio_stream.queue`): the flags
`is_started`, `_thread_started`, `_stop_event`, the FIFO of buffered frames,
and a ghost counter of `threading.Thread.start` invocations
(`super(Transcriber, self).start()`, transcriber.py:186). -/
structure TState where
  is_started : Bool
  thread_started : Bool
  stop_event : Bool
  queue : List Frame
  spawns : Nat
deriving DecidableEq

/-- A freshly constructed `Transcriber` (transcriber.py:90-136). -/
def TState.init : TState :=
  { is_started := false, thread_started := false, stop_event := false,
    queue := [], spawns := 0 }

/-- `Transcriber.start` (transcriber.py:171-186): return at once when
`_thread_started` is already set, otherwise set it and spawn the thread only
if the stop event has not occurred. -/
def TState.start (s : TState) : TState :=
  if s.thread_started then s
  else
    let s1 : TState := { s with thread_started := true }
    if s1.stop_event then s1 else { s1 with spawns := s1.spawns + 1 }

/-- `Transcriber.stop` (transcriber.py:188-191): clear `is_started`, set the
stop event. -/
def TState.stop (s : TState) : TState :=
  { s with is_started := false, stop_event := true }

/-- The entry of `Transcriber.run` (transcriber.py:142-151): return at once
if the stop event is set; otherwise the channel is created and `is_started`
becomes true. -/
def TState.runEntry (s : TState) : TState :=
  if s.stop_event then s else { s with is_started := true }

/-- `Transcriber.transcribe` → `QueuedAudioStream.write` → `Queue.put`
(transcriber.py:138-140, 298-300): append one frame to the FIFO. -/
def TState.transcribe (s : TState) (data : Frame) : TState :=
  { s with queue := s.queue ++ [data] }

/-- Push a whole sequence of frames in order. -/
def pushAll (s : TState) (frames : List Frame) : TState :=
  frames.foldl TState.transcribe s

/-- `QueuedAudioStream.read` (transcriber.py:302-307): when the queue is
nonempty, dequeue the head and return it only if it is truthy; a dequeued
falsy (empty) frame is discarded and `None` is returned. -/
def readFrame : List Frame → Option Frame × List Frame
  | [] => (none, [])
  | d :: rest => (if d.isEmpty then none else some d, rest)

/-- The request loop of `Transcriber._request_stream`
(transcriber.py:239-246): while the stop event is not set, `read` from the
audio stream; when a truthy frame comes back, yield a
`StreamingRecognizeRequest` carrying it.  `fuel` bounds how many loop
iterations run before an external `stop()` is observed. -/
def requestLoop : Nat → TState → List StreamingRecognizeRequest × TState
  | 0, s => ([], s)
  | fuel + 1, s =>
    if s.stop_event then ([], s)
    else
      match readFrame s.queue with
      | (some d, rest) =>
        let out := requestLoop fuel { s with queue := rest }
        (⟨d⟩ :: out.1, out.2)
      | (none, rest) => requestLoop fuel { s with queue := rest }

/-- `QueuedAudioStream.__exit__` (transcriber.py:291-293): clear the queue. -/
def scopeExit (s : TState) : TState :=
  { s with queue := [] }

/-- The `with self.audio_stream as stream` scope of `_request_stream`
(transcriber.py:239-246): run the request loop, then `__exit__` clears the
queue on every exit path from the scope. -/
def requestStreamRun (fuel : Nat) (s : TState) :
    List StreamingRecognizeRequest × TState :=
  let out := requestLoop fuel s
  (out.1, scopeExit out.2)

/-- The spec's lifecycle states for a session. -/
inductive Status
  | NotStarted
  | Connecting
  | Streaming
  | Stopped
deriving DecidableEq

/-- Abstraction of the transcriber's flags onto the spec's lifecycle states:
Stopped once the stop event is set; Streaming once `run` has set
`is_started`; Connecting once the worker thread has been spawned; NotStarted
otherwise. -/
def TState.status (s : TState) : Status :=
  if s.stop_event then .Stopped
  else if s.is_started then .Streaming
  else if s.thread_started then .Connecting
  else .NotStarted

/-- One recognition result inside a response event: the best alternative's
transcript (`result.alternatives[0].transcript`) and `result.is_final`
(transcriber.py:215-220); the head alternative is modelled directly as a
field. -/
structure SpeechResult where
  transcript : String
  is_final : Bool
deriving DecidableEq

/-- `code_pb2.OK`. -/
def codeOK : Nat := 0

/-- One response event of `resp_stream`: `resp.error.code`,
`resp.error.message` and `resp.results`. -/
structure Resp where
  errorCode : Nat
  errorMessage : String
  results : List SpeechResult
deriving DecidableEq

/-- The `TranscribedResult` namedtuple (transcriber.py:58). -/
structure TranscribedResult where
  text : String
  is_final : Bool
deriving DecidableEq

/-- `Transcriber._handle_results` (transcriber.py:193-221): for each
response event, a non-OK error code calls `stop()` and raises
`RuntimeError`, ending the iteration; otherwise each result fragment fires
the `on_transcribed` callback with a `TranscribedResult`.  Returns the final
transcriber state, the callback-delivered results in order, and
`Except.error msg` for the raised exception. -/
def handleResults (s : TState) : List Resp →
    TState × List TranscribedResult × Except String Unit
  | [] => (s, [], .ok ())
  | r :: rest =>
    if r.errorCode ≠ codeOK then
      (s.stop, [], .error ("Speech API Error: " ++ r.errorMessage))
    else
      let emitted := r.results.map fun x =>
        TranscribedResult.mk x.transcript x.is_final
      let out := handleResults s rest
      (out.1, emitted ++ out.2.1, out.2.2)

/-- The `try/finally` of `Transcriber.run` (transcriber.py:163-169): handle
the response stream; `stop()` runs in the `finally` on every path, and an
exception raised by `_handle_results` still propagates out of `run`. -/
def runBody (s : TState) (resps : List Resp) :
    TState × List TranscribedResult × Except String Unit :=
  let out := handleResults s resps
  (out.1.stop, out.2.1, out.2.2)

/-- One outbound JSON message
`json.dumps({'text': ..., 'isFinal': ...})` (server.py:179-183). -/
structure OutMsg where
  text : String
  isFinal : Bool
deriving DecidableEq

/-- `SpeechHandler.on_transcribed` (server.py:164-183): the message is
written only when `result` and `result.text` are truthy; the namedtuple is
always truthy, so the guard is nonemptiness of the text. -/
def onTranscribedMsgs (r : TranscribedResult) : List OutMsg :=
  if r.text = "" then [] else [⟨r.text, r.is_final⟩]

/-- The outbound messages produced for a sequence of delivered result
events, in delivery order. -/
def sessionMessages (rs : List TranscribedResult) : List OutMsg :=
  (rs.map onTranscribedMsgs).flatten

/-- A dynamic error raised by a Python attribute access. -/
inductive PyErr
  | attributeError (msg : String)
  | typeError (msg : String)
deriving DecidableEq

/-- A Python numeric value as used around the timeout check: `time.time()`
returns a `float`; `datetime.timedelta` is the type that would support
`total_seconds`. -/
inductive PyNum
  | float (x : ℚ)
  | timedelta (seconds : ℚ)
deriving DecidableEq

/-- Python truthiness of these values: zero is falsy. -/
def PyNum.truthy : PyNum → Bool
  | .float x => x != 0
  | .timedelta x => x != 0

/-- Python subtraction on these values: like types subtract and keep their
type; mixed operands raise. -/
def PyNum.sub : PyNum → PyNum → Except PyErr PyNum
  | .float a, .float b => .ok (.float (a - b))
  | .timedelta a, .timedelta b => .ok (.timedelta (a - b))
  | _, _ => .error (.typeError ("unsupported operand type for subtraction"))

/-- `x.total_seconds()`: defined on `timedelta`; a `float` has no such
attribute, so the access raises `AttributeError`. -/
def PyNum.total_seconds : PyNum → Except PyErr ℚ
  | .timedelta x => .ok x
  | .float _ =>
    .error (.attributeError ("float object has no attribute total_seconds"))

/-- The idle-timeout constant (server.py:41). -/
def TIMEOUT : Nat := 60

/-- The timeout check at the top of `SpeechHandler.on_message`
(server.py:115-121): when `_start_time` is truthy and the transcriber is
started, compute `(now - self._start_time).total_seconds()` and close the
socket when it exceeds `TIMEOUT`.  Both times come from `time.time()` and
are floats. -/
def timeoutCheck (now : PyNum) (startTime : Option PyNum) (started : Bool) :
    Except PyErr Bool :=
  match startTime with
  | none => .ok false
  | some st =>
    if st.truthy && started then do
      let d ← now.sub st
      let secs ← d.total_seconds
      .ok (decide (secs > ((TIMEOUT : Nat) : ℚ)))
    else .ok false

/-- The per-connection state of a `SpeechHandler` that the claims touch:
`_start_time`, whether the socket has been closed, and the owned
transcriber. -/
structure Handler where
  start_time : Option PyNum
  closed : Bool
  trans : TState
deriving DecidableEq

/-- `SpeechHandler.on_message` on a binary audio message
(server.py:106-144): the timeout check runs first; on timeout the socket is
closed and the frame is not processed; otherwise, if the transcriber is not
started, record `_start_time` and call `start()`; then `transcribe(data)`. -/
def onBinaryFrame (now : PyNum) (h : Handler) (data : Frame) :
    Except PyErr Handler :=
  match timeoutCheck now h.start_time h.trans.is_started with
  | .error e => .error e
  | .ok true => .ok { h with closed := true }
  | .ok false =>
    let h1 :=
      if h.trans.is_started then h
      else { h with start_time := some now, trans := h.trans.start }
    .ok { h1 with trans := h1.trans.transcribe data }

/-- Process a sequence of binary frames, each paired with its arrival
time. -/
def onFrames (h : Handler) : List (PyNum × Frame) → Except PyErr Handler
  | [] => .ok h
  | (now, data) :: rest => do
    let h1 ← onBinaryFrame now h data
    onFrames h1 rest

/-- The audio encoding: the default is the enum constant
`enums.RecognitionConfig.AudioEncoding.LINEAR16`
(transcriber.py:93); a configuration message overwrites the attribute with
the JSON string value (server.py:128). -/
inductive AudioEncoding
  | LINEAR16
  | str (s : String)
deriving DecidableEq

/-- The session's recognition configuration held on the `Transcriber`
(transcriber.py:113-119). -/
structure SessionConfig where
  rate : Nat
  language : String
  encoding : AudioEncoding
  punctuation : Bool
  interim_results : Bool
deriving DecidableEq

/-- The defaults of `Transcriber.__init__` (transcriber.py:90-101). -/
def defaultConfig : SessionConfig :=
  { rate := 44100, language := "en-US", encoding := .LINEAR16,
    punctuation := true, interim_results := true }

/-- A leading JSON configuration message: each of the four recognized fields
is either absent/`null` (`none`) or carries a value;
`if name in data and data[name] is not None` treats absent and `null`
alike (server.py:126-127). -/
structure ConfigMsg where
  rate : Option Nat
  language : Option String
  encoding : Option String
  punctuation : Option Bool
deriving DecidableEq

/-- The configuration branch of `on_message` (server.py:124-128): `setattr`
each present, non-null field, in the order rate, language, encoding,
punctuation. -/
def applyConfig (c : SessionConfig) (m : ConfigMsg) : SessionConfig :=
  let c1 := match m.rate with
    | some v => { c with rate := v }
    | none => c
  let c2 := match m.language with
    | some v => { c1 with language := v }
    | none => c1
  let c3 := match m.encoding with
    | some v => { c2 with encoding := .str v }
    | none => c2
  match m.punctuation with
  | some v => { c3 with punctuation := v }
  | none => c3

/-- One websocket lifecycle event: a connection opens (handler constructed,
id allocated from `_id_counter`, registered in `_clients` by `open`), or the
handler with the given id closes. -/
inductive SessionOp
  | connect
  | disconnect (id : Nat)
deriving DecidableEq

/-- The module-level registry state: the value of `_id_counter` and the key
set of `_clients` (server.py:37-38), the latter as a list without
duplicates. -/
structure RegState where
  counter : Nat
  clients : List Nat
deriving DecidableEq

/-- `SpeechHandler.__init__` and `open` (server.py:84, 100-104): allocate
the next id from the counter and register it if absent. -/
def regConnect (s : RegState) : RegState :=
  { counter := s.counter + 1,
    clients :=
      if s.counter ∈ s.clients then s.clients else s.clients ++ [s.counter] }

/-- `SpeechHandler.on_close` (server.py:185-190): `del _clients[id]` when
present, a no-op otherwise. -/
def regDisconnect (s : RegState) (id : Nat) : RegState :=
  { s with clients := s.clients.erase id }

/-- Execute a trace of lifecycle events against the registry. -/
def regExec (s : RegState) : List SessionOp → RegState
  | [] => s
  | .connect :: rest => regExec (regConnect s) rest
  | .disconnect i :: rest => regExec (regDisconnect s i) rest

/-- Well-formedness of a trace relative to the current counter value:
`on_close` is only ever invoked on a handler that was constructed, so every
disconnect names an id already allocated at that point. -/
def TraceWF : Nat → List SessionOp → Prop
  | _, [] => True
  | c, .connect :: rest => TraceWF (c + 1) rest
  | c, .disconnect i :: rest => i < c ∧ TraceWF c rest

/-- The number of connection opens in a trace. -/
def countConnects (ops : List SessionOp) : Nat :=
  ops.countP fun o =>
    match o with
    | .connect => true
    | .disconnect _ => false

theorem requestLoop_stopped (fuel : Nat) (s : TState)
    (h : s.stop_event = true) : requestLoop fuel s = ([], s) := by
  cases fuel with
  | zero => rfl
  | succ n => simp [requestLoop, h]

theorem requestLoop_drains (fuel : Nat) : ∀ s : TState,
    s.stop_event = false → s.queue.length ≤ fuel →
    (requestLoop fuel s).1 =
      (s.queue.filter (fun f => !f.isEmpty)).map StreamingRecognizeRequest.mk := by
  induction fuel with
  | zero =>
    intro s _ hlen
    have hq : s.queue = [] := List.eq_nil_of_length_eq_zero (Nat.le_zero.mp hlen)
    simp [requestLoop, hq]
  | succ n ih =>
    intro s hstop hlen
    obtain ⟨i1, t1, e1, q, sp⟩ := s
    simp only at hstop hlen
    subst hstop
    cases q with
    | nil =>
      have h2 := ih ⟨i1, t1, false, [], sp⟩ rfl (by simp)
      simpa [requestLoop, readFrame] using h2
    | cons d rest =>
      have hrest : rest.length ≤ n := Nat.succ_le_succ_iff.mp (by simpa using hlen)
      have h2 := ih ⟨i1, t1, false, rest, sp⟩ rfl (by simpa using hrest)
      by_cases hd : d.isEmpty
      · simp [requestLoop, readFrame, hd, h2]
      · simp [requestLoop, readFrame, hd, h2]

theorem pushAll_fields (frames : List Frame) : ∀ s : TState,
    pushAll s frames = { s with queue := s.queue ++ frames } := by
  induction frames with
  | nil => intro s; simp [pushAll]
  | cons d rest ih =>
    intro s
    have h2 := ih (s.transcribe d)
    simp [pushAll] at h2 ⊢
    rw [h2]
    simp [TState.transcribe]

/-- C1 counterexample: pushing the single frame `""` (the empty byte string)
and running the request loop yields no request at all — the dequeued falsy
frame is discarded by `QueuedAudioStream.read` rather than forwarded, so the
claim fails for the empty byte string. -/
theorem c1_fifo_cex :
    (requestLoop 1 (pushAll TState.init [([] : Frame)])).1 ≠
      [StreamingRecognizeRequest.mk ([] : Frame)] := by decide

/-- C1 (amended): the request stream yields `StreamingRecognizeRequest`
messages carrying the pushed frames in exactly their push order, except that
falsy (empty) frames are silently discarded when read from the queue: the
yielded requests are the pushed frames filtered to the nonempty ones, in
order.  `fuel` is any number of loop iterations large enough to drain the
queue. -/
theorem c1_fifo_filter (frames : List Frame) (fuel : Nat)
    (h : frames.length ≤ fuel) :
    (requestLoop fuel (pushAll TState.init frames)).1 =
      (frames.filter (fun f => !f.isEmpty)).map StreamingRecognizeRequest.mk := by
  rw [pushAll_fields frames TState.init]
  exact requestLoop_drains fuel _ rfl (by simpa [TState.init] using h)

theorem c1_fifo_filter_w :
    (requestLoop 3 (pushAll TState.init [[1], [], [2]])).1 =
      ([[1], [2]] : List Frame).map StreamingRecognizeRequest.mk :=
  (c1_fifo_filter [[1], [], [2]] 3 (by decide)).trans (by decide)

/-- C7: on every exit path from the worker's streaming scope — loop exit by
fuel exhaustion (normal end or error) or by an observed `stop()` — the
`with` scope's `__exit__` clears the audio buffer, so the final buffer holds
no frames; and once the stop event is set the loop forwards nothing and the
residual frames are all discarded. -/
theorem c7_buffer_cleared (fuel : Nat) (s : TState) :
    (requestStreamRun fuel s).2.queue = [] ∧
    (s.stop_event = true → requestStreamRun fuel s = ([], scopeExit s)) := by
  constructor
  · simp [requestStreamRun, scopeExit]
  · intro h
    simp [requestStreamRun, requestLoop_stopped fuel s h]

theorem c7_buffer_cleared_w :
    (requestStreamRun 2 ⟨false, false, true, [[3], [4]], 0⟩).2.queue = [] ∧
    requestStreamRun 2 ⟨false, false, true, [[3], [4]], 0⟩ =
      ([], scopeExit ⟨false, false, true, [[3], [4]], 0⟩) :=
  ⟨(c7_buffer_cleared 2 ⟨false, false, true, [[3], [4]], 0⟩).1,
   (c7_buffer_cleared 2 ⟨false, false, true, [[3], [4]], 0⟩).2 rfl⟩

theorem start_thread_started (s : TState) :
    (TState.start s).thread_started = true := by
  by_cases h : s.thread_started <;> by_cases h2 : s.stop_event <;>
    simp [TState.start, h, h2]

theorem start_of_started (s : TState) (h : s.thread_started = true) :
    TState.start s = s := by
  simp [TState.start, h]

theorem start_iter (n : Nat) : ∀ s : TState, s.thread_started = true →
    TState.start^[n] s = s := by
  induction n with
  | zero => intro s _; rfl
  | succ m ih =>
    intro s h
    rw [Function.iterate_succ_apply, start_of_started s h, ih s h]

/-- C5: from a fresh transcriber, any number `n ≥ 1` of calls to `start()`
has exactly the effect of the first call: the worker thread is spawned
exactly once, the state reaches Connecting, and every later call is a no-op
(and raises no error — `start` is a total function of the state). -/
theorem c5_start_once (s : TState) (n : Nat) (h0 : s.thread_started = false)
    (h1 : s.stop_event = false) (h2 : s.is_started = false) (hn : 1 ≤ n) :
    TState.start^[n] s = TState.start s ∧
    (TState.start s).spawns = s.spawns + 1 ∧
    (TState.start s).status = Status.Connecting := by
  refine ⟨?_, ?_, ?_⟩
  · obtain ⟨m, rfl⟩ := Nat.exists_eq_add_of_le hn
    rw [Nat.add_comm, Function.iterate_succ_apply,
      start_iter m (TState.start s) (start_thread_started s)]
  · simp [TState.start, h0, h1]
  · simp [TState.start, TState.status, h0, h1, h2]

theorem c5_start_once_w :
    TState.start^[3] TState.init = TState.start TState.init ∧
    (TState.start TState.init).spawns = TState.init.spawns + 1 ∧
    (TState.start TState.init).status = Status.Connecting :=
  c5_start_once TState.init 3 rfl rfl rfl (by decide)

/-- C6: `stop()` is idempotent — a second `stop()` changes nothing, so there
are no duplicate teardown side effects — the status after `stop()` is
Stopped, and Stopped is terminal: a later `start()` leaves the status
Stopped, spawns no worker thread, and never sets `is_started`; even the
worker entry `run` exits at once after a stop. -/
theorem c6_stop_idem_terminal (s : TState) :
    TState.stop (TState.stop s) = TState.stop s ∧
    (TState.stop s).status = Status.Stopped ∧
    (TState.start (TState.stop s)).status = Status.Stopped ∧
    (TState.start (TState.stop s)).spawns = s.spawns ∧
    (TState.start (TState.stop s)).is_started = false ∧
    TState.runEntry (TState.stop s) = TState.stop s := by
  refine ⟨rfl, by simp [TState.stop, TState.status], ?_, ?_, ?_,
    by simp [TState.runEntry, TState.stop]⟩ <;>
    by_cases h : s.thread_started <;>
    simp [TState.start, TState.stop, TState.status, h]

/-- C2 counterexample: a result event whose transcript is the empty string
produces no outbound message at all — `on_transcribed` writes only when
`result.text` is truthy — refuting "exactly one outbound message per result
event". -/
theorem c2_relay_cex :
    (sessionMessages [(⟨"", false⟩ : TranscribedResult)]).length ≠ 1 := by
  decide

/-- C2 (amended): the session sends exactly one outbound
`{"text": ..., "isFinal": ...}` message per result event with nonempty text,
in the order the events arrived; events with empty text are dropped.  In
particular the two events ("hi", false) then ("hi there", true) produce
exactly those two messages in that order. -/
theorem c2_relay (rs : List TranscribedResult) :
    sessionMessages rs =
      (rs.filter fun r => r.text != "").map
        fun r => OutMsg.mk r.text r.is_final := by
  induction rs with
  | nil => rfl
  | cons r rest ih =>
    by_cases h : r.text = "" <;>
      simp [sessionMessages, onTranscribedMsgs, h] at ih ⊢ <;>
      simp [ih]

/-- C3 counterexample: on a response event with non-OK error code 1
(CANCELLED) and message "x", the worker raises
`RuntimeError('Speech API Error: x')` which propagates out of `run` — the
`Except.error` outcome, an unguarded exception across the worker boundary —
and delivers no event at all to the session (the code has no error-event
callback), refuting "surfaced as a single terminal error event ... not as an
unguarded exception". -/
theorem c3_error_cex :
    (runBody (TState.init.transcribe [1])
        [(⟨1, "x", []⟩ : Resp)]).2.2 =
      Except.error ("Speech API Error: x") ∧
    (runBody (TState.init.transcribe [1])
        [(⟨1, "x", []⟩ : Resp)]).2.1 = [] := by
  constructor <;> rfl

/-- C3 (amended): for every response event carrying a non-OK error code, the
worker calls `stop()` — the session status is Stopped, and the request loop
forwards none of the already-buffered frames once the stop event is set — no
further result events are delivered, and the failure is raised as a
`RuntimeError` that propagates out of the worker's `run` (no error event is
delivered to the owning session). -/
theorem c3_error_stops (s : TState) (fuel : Nat) (r : Resp)
    (rest : List Resp) (h : r.errorCode ≠ codeOK) :
    (runBody s (r :: rest)).1.status = Status.Stopped ∧
    (runBody s (r :: rest)).2.1 = [] ∧
    (runBody s (r :: rest)).2.2 =
      Except.error ("Speech API Error: " ++ r.errorMessage) ∧
    (requestLoop fuel (runBody s (r :: rest)).1).1 = [] := by
  have hb : runBody s (r :: rest) =
      (TState.stop s, [],
        Except.error ("Speech API Error: " ++ r.errorMessage)) := by
    simp [runBody, handleResults, h, TState.stop]
  rw [hb]
  refine ⟨by simp [TState.stop, TState.status], rfl, rfl, ?_⟩
  rw [requestLoop_stopped fuel (TState.stop s) rfl]

theorem c3_error_stops_w :
    (runBody ⟨false, false, false, [[1], [2]], 0⟩
        [(⟨1, "x", []⟩ : Resp)]).1.status = Status.Stopped ∧
    (runBody ⟨false, false, false, [[1], [2]], 0⟩
        [(⟨1, "x", []⟩ : Resp)]).2.1 = [] ∧
    (runBody ⟨false, false, false, [[1], [2]], 0⟩
        [(⟨1, "x", []⟩ : Resp)]).2.2 =
      Except.error ("Speech API Error: " ++ "x") ∧
    (requestLoop 5 (runBody ⟨false, false, false, [[1], [2]], 0⟩
        [(⟨1, "x", []⟩ : Resp)]).1).1 = [] :=
  c3_error_stops ⟨false, false, false, [[1], [2]], 0⟩ 5 ⟨1, "x", []⟩ []
    (by decide)

/-- C4: the idle-timeout check can never complete.  `_start_time` is a
`time.time()` float, so once it is set (truthy) and the transcriber is
started, processing any further frame evaluates
`(now - self._start_time).total_seconds()` on a float and raises
`AttributeError` — already at elapsed 59 s, well inside the claimed window —
instead of either processing the frame normally or closing the session at
the 60 s boundary. -/
theorem c4_timeout_check_crashes (now t : ℚ) (ht : t ≠ 0) (h : Handler)
    (data : Frame) (hst : h.start_time = some (.float t))
    (hs : h.trans.is_started = true) :
    onBinaryFrame (.float now) h data =
      .error (.attributeError
        ("float object has no attribute total_seconds")) := by
  simp [onBinaryFrame, timeoutCheck, hst, hs, PyNum.truthy, PyNum.sub,
    PyNum.total_seconds, ht, Bind.bind, Except.bind]

theorem c4_timeout_check_crashes_w :
    onBinaryFrame (.float 60)
        ⟨some (.float 1), false, ⟨true, true, false, [], 1⟩⟩ [7] =
      .error (.attributeError
        ("float object has no attribute total_seconds")) :=
  c4_timeout_check_crashes 60 1 (by norm_num)
    ⟨some (.float 1), false, ⟨true, true, false, [], 1⟩⟩ [7] rfl rfl

/-- C10: (1) if the transcriber was started by the leading configuration
message, so that `is_started` is already true when the first binary frame
arrives, then `_start_time` is never set and no frame ever closes the
session — every frame is simply buffered; (2) while `is_started` is still
false, `_start_time` is overwritten with the current time on every arriving
binary frame rather than fixed at the first one. -/
theorem c10_config_start_defeats_timeout :
    (∀ (evs : List (PyNum × Frame)) (h : Handler),
        h.start_time = none → h.trans.is_started = true →
        onFrames h evs =
          .ok { h with trans := pushAll h.trans (evs.map Prod.snd) }) ∧
    (∀ (now : PyNum) (h : Handler) (data : Frame),
        h.trans.is_started = false →
        onBinaryFrame now h data =
          .ok { h with start_time := some now,
                       trans := (h.trans.start).transcribe data }) := by
  constructor
  · intro evs
    induction evs with
    | nil => intro h h1 h2; simp [onFrames, pushAll]
    | cons ev rest ih =>
      intro h h1 h2
      obtain ⟨now, data⟩ := ev
      have hstep : onBinaryFrame now h data =
          .ok { h with trans := h.trans.transcribe data } := by
        simp [onBinaryFrame, timeoutCheck, h1, h2]
      have h3 := ih { h with trans := h.trans.transcribe data }
        (by simpa using h1) (by simpa [TState.transcribe] using h2)
      have h4 : onFrames h ((now, data) :: rest) =
          onFrames { h with trans := h.trans.transcribe data } rest := by
        simp [onFrames, hstep, Bind.bind, Except.bind]
      rw [h4, h3]
      simp [pushAll]
  · intro now h data h1
    cases hst : h.start_time with
    | none => simp [onBinaryFrame, timeoutCheck, hst, h1]
    | some st => simp [onBinaryFrame, timeoutCheck, hst, h1]

theorem c10_config_start_defeats_timeout_w :
    onFrames ⟨none, false, ⟨true, false, false, [], 0⟩⟩
        [(.float 1, [1]), (.float 73, [2])] =
      .ok ⟨none, false, ⟨true, false, false, [[1], [2]], 0⟩⟩ ∧
    onBinaryFrame (.float 5) ⟨none, false, ⟨false, false, false, [], 0⟩⟩
        [9] =
      .ok ⟨some (.float 5), false, ⟨false, true, false, [[9]], 1⟩⟩ :=
  ⟨c10_config_start_defeats_timeout.1 [(.float 1, [1]), (.float 73, [2])]
      ⟨none, false, ⟨true, false, false, [], 0⟩⟩ rfl rfl,
   c10_config_start_defeats_timeout.2 (.float 5)
      ⟨none, false, ⟨false, false, false, [], 0⟩⟩ [9] rfl⟩

/-- C8: the defaults are sampleRateHz=44100, encoding=LINEAR16,
language="en-US", punctuation=true, interimResults=true and a 60 s timeout;
a leading JSON configuration message updates exactly the fields among
{rate, language, encoding, punctuation} that are present and non-null, and
every omitted or null field (and `interim_results`, which is not
recognized) keeps its current value. -/
theorem c8_defaults_and_config (c : SessionConfig) (m : ConfigMsg) :
    defaultConfig.rate = 44100 ∧
    defaultConfig.encoding = AudioEncoding.LINEAR16 ∧
    defaultConfig.language = "en-US" ∧
    defaultConfig.punctuation = true ∧
    defaultConfig.interim_results = true ∧
    TIMEOUT = 60 ∧
    applyConfig c m =
      { rate := m.rate.getD c.rate,
        language := m.language.getD c.language,
        encoding := (m.encoding.map AudioEncoding.str).getD c.encoding,
        punctuation := m.punctuation.getD c.punctuation,
        interim_results := c.interim_results } := by
  refine ⟨rfl, rfl, rfl, rfl, rfl, rfl, ?_⟩
  obtain ⟨r, l, e, p⟩ := m
  cases r <;> cases l <;> cases e <;> cases p <;> rfl

theorem regExec_characterization (ops : List SessionOp) :
    ∀ (c : Nat) (cl : List Nat), TraceWF c ops → (∀ x ∈ cl, x < c) →
    cl.Nodup →
    ((regExec ⟨c, cl⟩ ops).counter = c + countConnects ops ∧
     (regExec ⟨c, cl⟩ ops).clients.Nodup ∧
     ∀ id : Nat, id ∈ (regExec ⟨c, cl⟩ ops).clients ↔
       ((id ∈ cl ∨ (c ≤ id ∧ id < c + countConnects ops)) ∧
         SessionOp.disconnect id ∉ ops)) := by
  induction ops with
  | nil =>
    intro c cl _ _ hnd
    refine ⟨by simp [regExec, countConnects], hnd, ?_⟩
    intro id
    simp only [regExec, countConnects, List.countP_nil, Nat.add_zero,
      List.not_mem_nil, not_false_iff, and_true]
    constructor
    · exact fun h => Or.inl h
    · rintro (h | ⟨h1, h2⟩)
      · exact h
      · omega
  | cons op rest ih =>
    intro c cl hwf hb hnd
    cases op with
    | connect =>
      have hc : c ∉ cl := fun hmem => absurd (hb c hmem) (lt_irrefl c)
      have hstep : regExec ⟨c, cl⟩ (SessionOp.connect :: rest) =
          regExec ⟨c + 1, cl ++ [c]⟩ rest := by
        simp [regExec, regConnect, hc]
      have hb2 : ∀ x ∈ cl ++ [c], x < c + 1 := by
        intro x hx
        rcases List.mem_append.mp hx with h | h
        · exact Nat.lt_succ_of_lt (hb x h)
        · simp only [List.mem_singleton] at h
          omega
      have hnd2 : (cl ++ [c]).Nodup := by
        refine hnd.append (List.nodup_singleton c) ?_
        intro a ha hca
        simp only [List.mem_singleton] at hca
        subst hca
        exact hc ha
      obtain ⟨ih1, ih2, ih3⟩ := ih (c + 1) (cl ++ [c]) hwf hb2 hnd2
      have hcount : countConnects (SessionOp.connect :: rest) =
          countConnects rest + 1 := by
        simp [countConnects]
      refine ⟨?_, ?_, ?_⟩
      · rw [hstep, ih1, hcount]
        omega
      · rw [hstep]
        exact ih2
      · intro id
        rw [hstep, ih3 id, hcount]
        have hmem : id ∈ cl ++ [c] ↔ (id ∈ cl ∨ id = c) := by
          simp [List.mem_append]
        have hno : SessionOp.disconnect id ∉ (SessionOp.connect :: rest) ↔
            SessionOp.disconnect id ∉ rest := by
          simp
        rw [hmem, hno]
        constructor
        · rintro ⟨(hP | rfl) | ⟨h1, h2⟩, hq⟩
          · exact ⟨Or.inl hP, hq⟩
          · exact ⟨Or.inr ⟨le_refl _, by omega⟩, hq⟩
          · exact ⟨Or.inr ⟨by omega, by omega⟩, hq⟩
        · rintro ⟨hP | ⟨h1, h2⟩, hq⟩
          · exact ⟨Or.inl (Or.inl hP), hq⟩
          · by_cases hid : id = c
            · exact ⟨Or.inl (Or.inr hid), hq⟩
            · exact ⟨Or.inr ⟨by omega, by omega⟩, hq⟩
    | disconnect i =>
      have hwf2 : i < c ∧ TraceWF c rest := hwf
      have hstep : regExec ⟨c, cl⟩ (SessionOp.disconnect i :: rest) =
          regExec ⟨c, cl.erase i⟩ rest := by
        simp [regExec, regDisconnect]
      have hb2 : ∀ x ∈ cl.erase i, x < c :=
        fun x hx => hb x (List.mem_of_mem_erase hx)
      obtain ⟨ih1, ih2, ih3⟩ := ih c (cl.erase i) hwf2.2 hb2 (hnd.erase i)
      have hcount : countConnects (SessionOp.disconnect i :: rest) =
          countConnects rest := by
        simp [countConnects]
      refine ⟨?_, ?_, ?_⟩
      · rw [hstep, ih1, hcount]
      · rw [hstep]
        exact ih2
      · intro id
        rw [hstep, ih3 id, hcount]
        have hmem : id ∈ cl.erase i ↔ (id ≠ i ∧ id ∈ cl) :=
          hnd.mem_erase_iff
        have hno : SessionOp.disconnect id ∉ (SessionOp.disconnect i :: rest)
            ↔ (id ≠ i ∧ SessionOp.disconnect id ∉ rest) := by
          simp only [List.mem_cons, not_or, SessionOp.disconnect.injEq]
        rw [hmem, hno]
        constructor
        · rintro ⟨⟨hne, hin⟩ | ⟨h1, h2⟩, hq⟩
          · exact ⟨Or.inl hin, hne, hq⟩
          · have : id ≠ i := by omega
            exact ⟨Or.inr ⟨h1, h2⟩, this, hq⟩
        · rintro ⟨hP | ⟨h1, h2⟩, hne, hq⟩
          · exact ⟨Or.inl ⟨hne, hP⟩, hq⟩
          · exact ⟨Or.inr ⟨h1, h2⟩, hq⟩

/-- C9: after any sequence of connection opens and closes (each close naming
a previously allocated id), the registry holds pairwise-distinct ids —
allocated 0, 1, 2, … by the monotonic counter, never reused — and contains
exactly the ids that have been opened and not closed: `id` is registered iff
`id` was allocated and no close for it occurred. -/
theorem c9_registry (ops : List SessionOp) (h : TraceWF 0 ops) :
    (regExec ⟨0, []⟩ ops).clients.Nodup ∧
    (regExec ⟨0, []⟩ ops).counter = countConnects ops ∧
    ∀ id : Nat, id ∈ (regExec ⟨0, []⟩ ops).clients ↔
      (id < countConnects ops ∧ SessionOp.disconnect id ∉ ops) := by
  obtain ⟨h1, h2, h3⟩ :=
    regExec_characterization ops 0 [] h (by simp) List.nodup_nil
  refine ⟨h2, by simpa using h1, ?_⟩
  intro id
  rw [h3 id]
  simp

theorem c9_registry_w :
    (regExec ⟨0, []⟩ [SessionOp.connect, SessionOp.connect,
        SessionOp.disconnect 0]).clients.Nodup ∧
    (regExec ⟨0, []⟩ [SessionOp.connect, SessionOp.connect,
        SessionOp.disconnect 0]).counter =
      countConnects [SessionOp.connect, SessionOp.connect,
        SessionOp.disconnect 0] ∧
    (1 ∈ (regExec ⟨0, []⟩ [SessionOp.connect, SessionOp.connect,
        SessionOp.disconnect 0]).clients ↔
      (1 < countConnects [SessionOp.connect, SessionOp.connect,
          SessionOp.disconnect 0] ∧
        SessionOp.disconnect 1 ∉ [SessionOp.connect, SessionOp.connect,
          SessionOp.disconnect 0])) :=
  ⟨(c9_registry [SessionOp.connect, SessionOp.connect,
      SessionOp.disconnect 0] (by simp [TraceWF])).1,
   (c9_registry [SessionOp.connect, SessionOp.connect,
      SessionOp.disconnect 0] (by simp [TraceWF])).2.1,
   (c9_registry [SessionOp.connect, SessionOp.connect,
      SessionOp.disconnect 0] (by simp [TraceWF])).2.2 1⟩
